import Mathlib

/-!
Verification model of the grant-matching core of project-iceman.

The definitions below are shallow embeddings of the Python sources
src/backend/grant_matcher.py and src/scripts/build_grant_features.py.
Modelling conventions, stated once here:
* Python floats are modelled by exact rationals (ℚ).  All numeric
  literals appearing in the source (0.7, 50, 80, ...) are exactly
  representable, so the idealisation only ignores floating-point
  rounding noise.
* Python round(x, 1) is modelled by round-half-to-even at one decimal
  (the rounding rule Python documents for round).
* Python strings are modelled by Lean String, operated on through the
  underlying character list; the ASCII fragment of str.lower, str.strip
  and the regex classes \s and \w is modelled, which covers all
  taxonomy keywords, markers and eligibility phrases of the source.
* A Python dict field read with .get and a default is modelled either
  by a plain field (when the default is a constant such as "" or 0) or
  by an Option field (when absence is observable, e.g. cap_amount_sgd).
-/

/-- Characters matched by the Python regex class \s and removed by
str.strip (ASCII model). -/
def isPySpace (c : Char) : Bool :=
  c = ' ' || c = '\t' || c = '\n' || c = '\r' || c = '\x0b' || c = '\x0c'

/-- Model of WS_RE.sub(" ", s): every maximal whitespace run is replaced
by a single space.  The Boolean argument records whether the previous
character belonged to a whitespace run. -/
def collapseWS : Bool → List Char → List Char
  | _, [] => []
  | inRun, c :: cs =>
    if isPySpace c then
      if inRun then collapseWS true cs else ' ' :: collapseWS true cs
    else c :: collapseWS false cs

/-- Model of str.strip(): drop whitespace at both ends. -/
def pyStrip (l : List Char) : List Char :=
  ((l.dropWhile isPySpace).reverse.dropWhile isPySpace).reverse

/-- clean(s) = WS_RE.sub(" ", s or "").strip()  (build_grant_features.py). -/
def clean (s : String) : String := ⟨pyStrip (collapseWS false s.data)⟩

/-- Model of str.lower (ASCII). -/
def pyLower (s : String) : String := ⟨s.data.map Char.toLower⟩

/-- norm(s) = clean(s).lower()  (build_grant_features.py). -/
def pyNorm (s : String) : String := pyLower (clean s)

/-- Model of the Python substring test (needle in haystack), on
character lists. -/
def substrL (needle hay : List Char) : Bool :=
  hay.tails.any (fun t => needle.isPrefixOf t)

/-- Model of the Python substring test (needle in haystack). -/
def substr (needle hay : String) : Bool := substrL needle.data hay.data

/-- ASCII decimal digit test (regex class \d). -/
def isDigitCh (c : Char) : Bool := '0' ≤ c && c ≤ '9'

/-- ASCII model of the regex word class \w (letters, digits, underscore). -/
def isWordCh (c : Char) : Bool := c.isAlpha || isDigitCh c || c = '_'

/-- Word boundary test after a word character: the match may end here
only if the next character is absent or a non-word character. -/
def bOK : List Char → Bool
  | [] => true
  | c :: _ => !(isWordCh c)

/-- Numeric value of a digit list. -/
def digitsToNat (l : List Char) : Nat :=
  l.foldl (fun n c => 10 * n + (c.toNat - 48)) 0

/-- Exact value of the decimal numeral intPart.fracPart. -/
def decimalToQ (intPart fracPart : List Char) : ℚ :=
  (digitsToNat intPart : ℚ) + (digitsToNat fracPart : ℚ) / ((10 : ℚ) ^ fracPart.length)

/-- Python list slicing l[a:b] with clamping. -/
def sliceL (l : List Char) (a b : Nat) : List Char := (l.take b).drop a

/-- Split a character list at every occurrence of the separator,
keeping empty pieces: the semantics of the Python str.split(sep) for a
one-character separator. -/
def splitOnCh (sep : Char) : List Char → List (List Char)
  | [] => [[]]
  | c :: cs =>
    if c = sep then
      [] :: splitOnCh sep cs
    else
      match splitOnCh sep cs with
      | [] => [[c]]
      | p :: ps => (c :: p) :: ps

/-!  Funding extractor (extract_funding in build_grant_features.py). -/

/-- Attempt to match PERCENT_RE = (\d+(\.\d+)?)\s*% at the head of the
list; returns the numeric value of group 1 and the list after the
match.  Greedy matching without backtracking is exact for this regex
(shrinking \d+ or \.\d+ leaves a digit in front of \s*%, which fails). -/
def matchPercentAt (l : List Char) : Option (ℚ × List Char) :=
  let ds := l.takeWhile isDigitCh
  if ds.length = 0 then none
  else
    let r1 := l.drop ds.length
    let fr :=
      match r1 with
      | '.' :: t =>
        let fs := t.takeWhile isDigitCh
        if fs.length = 0 then ([], r1) else (fs, t.drop fs.length)
      | _ => ([], r1)
    let r3 := fr.2.dropWhile isPySpace
    match r3 with
    | '%' :: rest => some (decimalToQ ds fr.1, rest)
    | _ => none

/-- finditer for PERCENT_RE: scan left to right, resuming after each
match; the fuel argument (initialised to the list length) makes the
recursion structural, and never runs out because every step consumes at
least one character. -/
def scanPercents : Nat → List Char → List ℚ
  | 0, _ => []
  | _, [] => []
  | fuel + 1, c :: cs =>
    match matchPercentAt (c :: cs) with
    | some (v, rest) => v :: scanPercents fuel rest
    | none => scanPercents fuel cs

/-- Greedily collect the (,\d{3})* groups of MONEY_RE. -/
def commaGroups : List Char → List (List Char) × List Char
  | ',' :: a :: b :: c :: rest =>
    if isDigitCh a && isDigitCh b && isDigitCh c then
      let gr := commaGroups rest
      ([a, b, c] :: gr.1, gr.2)
    else ([], ',' :: a :: b :: c :: rest)
  | l => ([], l)

/-- Match the amount part \d{1,3}(,\d{3})*(\.\d+)?\b of MONEY_RE at the
head of the list; returns (integer digits, fraction digits, rest).
Backtracking note: if the trailing \b fails after the full greedy
match, the regex drops the fractional part, and failing that drops the
last comma group, after which the next character is a comma and \b
holds; this is reproduced below. -/
def matchAmount (l : List Char) : Option (List Char × List Char × List Char) :=
  let run := l.takeWhile isDigitCh
  if run.length = 0 ∨ 3 < run.length then none
  else
    let r1 := l.drop run.length
    let gr := commaGroups r1
    let withFrac : Option (List Char × List Char × List Char) :=
      match gr.2 with
      | '.' :: t =>
        let fs := t.takeWhile isDigitCh
        if fs.length ≠ 0 ∧ bOK (t.drop fs.length) then
          some (run ++ gr.1.flatten, fs, t.drop fs.length)
        else none
      | _ => none
    match withFrac with
    | some res => some res
    | none =>
      if bOK gr.2 then some (run ++ gr.1.flatten, [], gr.2)
      else
        match gr.1.getLast? with
        | some lastGroup =>
          some (run ++ gr.1.dropLast.flatten, [], ',' :: lastGroup ++ gr.2)
        | none => none

/-- Attempt to match MONEY_RE = \b(S?\$)\s*(\d{1,3}(,\d{3})*(\.\d+)?)\b
(case-insensitive) at the head of the list, given whether the previous
character is a word character (for the leading \b).  S is a word
character, so the S-branch needs a non-word predecessor, while the
bare-$ branch needs a word predecessor ($ itself is non-word).  Returns
the amount value and the number of characters consumed. -/
def matchMoneyAt (prevWord : Bool) (l : List Char) : Option (ℚ × Nat) :=
  let tryAmount : List Char → Nat → Option (ℚ × Nat) := fun r consumedSoFar =>
    let sp := r.takeWhile isPySpace
    let r2 := r.drop sp.length
    (matchAmount r2).map fun res =>
      (decimalToQ res.1 res.2.1, consumedSoFar + sp.length + (r2.length - res.2.2.length))
  match l with
  | s :: '$' :: rest =>
    if (s = 'S' ∨ s = 's') ∧ prevWord = false then tryAmount rest 2 else none
  | '$' :: rest =>
    if prevWord then tryAmount rest 1 else none
  | _ => none

/-- finditer for MONEY_RE, tracking the absolute position (for
m.start()) and the word-character status of the previous character. -/
def scanMoney : Nat → Nat → Bool → List Char → List (ℚ × Nat)
  | 0, _, _, _ => []
  | _, _, _, [] => []
  | fuel + 1, pos, prevWord, c :: cs =>
    match matchMoneyAt prevWord (c :: cs) with
    | some (v, consumed) =>
      (v, pos) :: scanMoney fuel (pos + consumed) true ((c :: cs).drop consumed)
    | none => scanMoney fuel (pos + 1) (isWordCh c) cs

def CAP_MARKERS : List String :=
  ["cap", "capped", "up to", "maximum", "max", "not exceed", "no more than"]

def COFUND_MARKERS : List String :=
  ["co-fund", "cofund", "co-funding", "co funding", "co-funded", "co funded",
   "match", "matched", "co-pay", "copay"]

/-- Python max over a list of floats. -/
def listMax : List ℚ → Option ℚ
  | [] => none
  | v :: rest =>
    match listMax rest with
    | none => some v
    | some m => some (max v m)

/-- First currency amount whose 80-character window in the lowered text
contains a cap marker (Nat subtraction clamps pos - 80 at 0, matching
max(0, pos - 80)). -/
def firstCap (low : List Char) : List (ℚ × Nat) → Option ℚ
  | [] => none
  | (v, pos) :: rest =>
    if CAP_MARKERS.any (fun m => substrL m.data (sliceL low (pos - 80) (pos + 80))) then
      some v
    else firstCap low rest

structure FundingInfo where
  percent_max : Option ℚ
  cap_amount_sgd : Option ℚ
  mentions_cofunding : Bool
  raw : Option String
deriving DecidableEq

/-- extract_funding (build_grant_features.py). -/
def extract_funding (raw_text : String) : FundingInfo :=
  let raw := clean raw_text
  let low := pyNorm raw
  let percents := scanPercents raw.data.length raw.data
  let amounts := scanMoney raw.data.length 0 false raw.data
  { percent_max := listMax percents
    cap_amount_sgd := firstCap low.data amounts
    mentions_cofunding := COFUND_MARKERS.any (fun m => substrL m.data low.data)
    raw := if raw = "" then none else some raw }

/-!  Application-window extractor (extract_application_window). -/

/-- The month alternation of DATE_RE in source order, with the month
number assigned by MONTH_MAP. -/
def MONTH_ALTS : List (String × Nat) :=
  [("jan", 1), ("feb", 2), ("mar", 3), ("apr", 4), ("may", 5), ("jun", 6),
   ("jul", 7), ("aug", 8), ("sep", 9), ("sept", 9), ("oct", 10), ("nov", 11), ("dec", 12)]

/-- Match \s+(\d{4})\b. -/
def matchYearPart (l : List Char) : Option (Nat × List Char) :=
  let sp := l.takeWhile isPySpace
  if sp.length = 0 then none
  else
    let r := l.drop sp.length
    let run := r.takeWhile isDigitCh
    if run.length = 4 ∧ bOK (r.drop 4) then some (digitsToNat run, r.drop 4)
    else none

/-- Try the month alternatives in source order; the first alternative
for which the rest of the pattern also matches wins (this realises the
backtracking between Sep and Sept). -/
def matchMonthRest (l : List Char) : List (String × Nat) → Option (Nat × Nat × List Char)
  | [] => none
  | (alt, mon) :: others =>
    if (l.take alt.data.length).map Char.toLower = alt.data then
      match matchYearPart (l.drop alt.data.length) with
      | some (y, rem) => some (mon, y, rem)
      | none => matchMonthRest l others
    else matchMonthRest l others

/-- Attempt to match DATE_RE = \b(\d{1,2})\s+(Jan|...|Dec)\s+(\d{4})\b
(case-insensitive) at the head of the list; only called at positions
whose previous character is not a word character (the leading \b).
Returns (day digits value, month number, year, rest). -/
def matchDateAt (l : List Char) : Option (Nat × Nat × Nat × List Char) :=
  let run := l.takeWhile isDigitCh
  if run.length = 0 ∨ 2 < run.length then none
  else
    let r1 := l.drop run.length
    let sp := r1.takeWhile isPySpace
    if sp.length = 0 then none
    else
      match matchMonthRest (r1.drop sp.length) MONTH_ALTS with
      | some (mon, y, rem) => some (digitsToNat run, mon, y, rem)
      | none => none

def isLeapYear (y : Nat) : Bool :=
  (y % 4 = 0 && y % 100 ≠ 0) || y % 400 = 0

def daysInMonth (y m : Nat) : Nat :=
  if m = 2 then (if isLeapYear y then 29 else 28)
  else if m = 4 ∨ m = 6 ∨ m = 9 ∨ m = 11 then 30
  else 31

def digitCh (n : Nat) : Char := Char.ofNat (48 + n)

def pad2 (n : Nat) : List Char := [digitCh (n / 10 % 10), digitCh (n % 10)]

def pad4 (n : Nat) : List Char :=
  [digitCh (n / 1000 % 10), digitCh (n / 100 % 10), digitCh (n / 10 % 10), digitCh (n % 10)]

/-- date(y, m, d).isoformat() for the year range produced by DATE_RE. -/
def isoFormat (y m d : Nat) : String := ⟨pad4 y ++ '-' :: (pad2 m ++ '-' :: pad2 d)⟩

/-- Model of _match_to_iso: datetime(y, mon, d) raises for year 0 and
for a day outside the month (the month number from MONTH_MAP is always
valid), in which case the date is dropped. -/
def match_to_iso (d mon y : Nat) : Option String :=
  if 1 ≤ y ∧ 1 ≤ d ∧ d ≤ daysInMonth y mon then some (isoFormat y mon d) else none

/-- finditer for DATE_RE with conversion through _match_to_iso; a
position whose previous character is a word character cannot start a
match (the leading \b), and scanning resumes after each match. -/
def scanDates : Nat → Bool → List Char → List String
  | 0, _, _ => []
  | _, _, [] => []
  | fuel + 1, prevWord, c :: cs =>
    if prevWord then scanDates fuel (isWordCh c) cs
    else
      match matchDateAt (c :: cs) with
      | some (d, mon, y, rem) =>
        match match_to_iso d mon y with
        | some iso => iso :: scanDates fuel true rem
        | none => scanDates fuel true rem
      | none => scanDates fuel (isWordCh c) cs

/-- All ISO dates extracted from a text, in source order. -/
def extractedDates (raw : String) : List String :=
  scanDates raw.data.length false raw.data

/-- Ordering used by the Python sorted() on ISO date strings: code
point lexicographic comparison. -/
def strLe (a b : String) : Prop := a.data ≤ b.data

instance : DecidableRel strLe := fun a b => by
  unfold strLe; infer_instance

/-- Insert into an ascending list (insertion sort step). -/
def insStr (s : String) : List String → List String
  | [] => [s]
  | x :: xs => if strLe s x then s :: x :: xs else x :: insStr s xs

/-- sorted() on a list of strings (ascending); on a duplicate-free list
any comparison sort has this result. -/
def sortStrAsc : List String → List String
  | [] => []
  | x :: xs => insStr x (sortStrAsc xs)

def OPEN_ALL_YEAR_MARKERS : List String :=
  ["throughout the year", "all year", "all year round", "year-round", "year round",
   "open throughout"]

structure ApplicationWindow where
  is_open_all_year : Option Bool
  dates : List String
  start_date : Option String
  end_date : Option String
  raw : Option String
deriving DecidableEq

/-- The all-null window returned for empty input (and the model of a
missing application_window dict in a grant profile). -/
def emptyWindow : ApplicationWindow :=
  { is_open_all_year := none, dates := [], start_date := none, end_date := none, raw := none }

/-- extract_application_window (build_grant_features.py).  dates is
sorted(set(found)): deduplication followed by an ascending sort.
start_date = dates[0] when dates is non-empty; end_date = dates[-1]
when at least two dates exist, else start_date. -/
def extract_application_window (when_text : String) : ApplicationWindow :=
  let raw := clean when_text
  if raw = "" then emptyWindow
  else
    let low := pyNorm raw
    let is_open := OPEN_ALL_YEAR_MARKERS.any (fun m => substrL m.data low.data)
    let dates := sortStrAsc (extractedDates raw).dedup
    { is_open_all_year := some is_open
      dates := dates
      start_date := dates.head?
      end_date := if 2 ≤ dates.length then dates.getLast? else dates.head?
      raw := some raw }

/-!  Match scoring engine (grant_matcher.py, class OurSGGrantMatcher). -/

/-- One-decimal round-half-to-even: the rounding rule of the Python
built-in round(x, 1). -/
def rhe (y : ℚ) : ℤ :=
  if y - ⌊y⌋ < 1 / 2 then ⌊y⌋
  else if 1 / 2 < y - ⌊y⌋ then ⌊y⌋ + 1
  else if Even ⌊y⌋ then ⌊y⌋ else ⌊y⌋ + 1

/-- round(x, 1). -/
def round1 (x : ℚ) : ℚ := (rhe (10 * x) : ℚ) / 10

structure GrantProfile where
  issue_areas : List String
  scope_tags : List String
  funding : FundingInfo
  application_window : ApplicationWindow
deriving DecidableEq

/-- Grant record as read by the matcher, with the text fields accessed
via grant.get(key, "") modelled as plain strings (absence = "").  A
missing grant_profile dict is modelled by none; missing sub-dicts
(funding, application_window) are modelled by their all-none values. -/
structure GrantRecord where
  title : String
  agency : String
  about : String
  who_can_apply : String
  source_url : String
  grant_profile : Option GrantProfile
deriving DecidableEq

/-- NPO profile as read by the matcher.  funding_min models
npo.get("funding_min", 0) (so the absent-key default 0 is the field
value); funding_max models npo.get("funding_max", float("inf")) with
none standing for the infinite default; the other .get(key, "") and
.get("funding_urgency", "medium") reads are plain fields. -/
structure NPOProfile where
  organization_type : String
  registration_status : String
  issue_areas : List String
  project_types : List String
  funding_min : ℚ
  funding_max : Option ℚ
  funding_urgency : String
  mission : String
  description : String
deriving DecidableEq

/-- area.lower().strip() applied to one label. -/
def normArea (a : String) : String := ⟨pyStrip (pyLower a).data⟩

def emptyFunding : FundingInfo :=
  { percent_max := none, cap_amount_sgd := none, mentions_cofunding := false, raw := none }

def gpIssueAreas (g : GrantRecord) : List String :=
  (g.grant_profile.map GrantProfile.issue_areas).getD []

def gpScopeTags (g : GrantRecord) : List String :=
  (g.grant_profile.map GrantProfile.scope_tags).getD []

def fundingOf (g : GrantRecord) : FundingInfo :=
  (g.grant_profile.map GrantProfile.funding).getD emptyFunding

def windowOf (g : GrantRecord) : ApplicationWindow :=
  (g.grant_profile.map GrantProfile.application_window).getD emptyWindow

/-- The Python set(area.lower().strip() for area in ...), as a
duplicate-free list. -/
def npoAreaSet (npo : NPOProfile) : List String :=
  (npo.issue_areas.map normArea).dedup

/-- The grant-side issue-area set. -/
def grantAreaSet (g : GrantRecord) : List String :=
  ((gpIssueAreas g).map normArea).dedup

/-- _score_issue_areas (score field only; the details and matched-list
fields of the returned dict are presentational and not modelled). -/
def score_issue_areas (npo : NPOProfile) (g : GrantRecord) : ℚ :=
  let npoA := npoAreaSet npo
  let grantA := grantAreaSet g
  if npoA = [] ∨ grantA = [] then 0
  else
    let matched := npoA.filter (fun a => a ∈ grantA)
    if matched = [] then 0
    else
      let coverage : ℚ := (matched.length : ℚ) / (grantA.length : ℚ)
      let overlap_rate : ℚ := (matched.length : ℚ) / (npoA.length : ℚ)
      round1 ((coverage * 0.7 + overlap_rate * 0.3) * 100)

/-- _score_scope_tags (score field only). -/
def score_scope_tags (npo : NPOProfile) (g : GrantRecord) : ℚ :=
  let npoS := (npo.project_types.map normArea).dedup
  let grantS := ((gpScopeTags g).map normArea).dedup
  if grantS = [] then 100
  else if npoS = [] then 50
  else
    let matched := npoS.filter (fun a => a ∈ grantS)
    if matched = [] then 30
    else round1 (((matched.length : ℚ) / (grantS.length : ℚ)) * 100)

/-- Python float truthiness of an optional number: None and 0 are
falsy. -/
def truthyQ : Option ℚ → Bool
  | none => false
  | some v => decide (v ≠ 0)

/-- Python string truthiness of an optional string: None and "" are
falsy. -/
def truthyS : Option String → Bool
  | none => false
  | some s => decide (s ≠ "")

/-- _score_funding (score field only).  The none branch for funding_max
realises the float("inf") default: cap_amount >= inf is false, and the
interpolation coverage (cap - min) / (inf - min) is 0.0, giving 50. -/
def score_funding (npo : NPOProfile) (g : GrantRecord) : ℚ :=
  let npo_min := npo.funding_min
  let f := fundingOf g
  let cap := f.cap_amount_sgd
  let pct := f.percent_max
  if ¬ truthyQ cap ∧ ¬ truthyQ pct then 70
  else if truthyQ cap then
    let c := cap.getD 0
    if c < npo_min then 20
    else
      match npo.funding_max with
      | none => round1 (50 + 0 * 50)
      | some npo_max =>
        if npo_max ≤ c then 100
        else
          let coverage : ℚ := if npo_min < npo_max then (c - npo_min) / (npo_max - npo_min) else 1
          round1 (50 + coverage * 50)
  else if truthyQ pct then round1 ((pct.getD 0 / 100) * 100)
  else 60

/-- The five fixed eligibility checks of _score_eligibility, in source
order: phrase looked up in the eligibility text, paired with whether
this NPO satisfies the corresponding predicate. -/
def eligibility_checks (npo : NPOProfile) : List (String × Bool) :=
  let npo_type := pyLower npo.organization_type
  let npo_registration := pyLower npo.registration_status
  [ ("registered charity", substr "charity" npo_registration || substr "ipc" npo_registration),
    ("non-profit", substr "non-profit" npo_type || substr "charity" npo_registration),
    ("social service", substr "social service" npo_type || substr "ssa" npo_type),
    ("registered", npo_registration ≠ ""),
    ("singapore", true) ]

/-- _score_eligibility (score field only): base 50, +10 / -15 per
applicable check, then capped above at min(100, score); there is no
lower cap. -/
def score_eligibility (npo : NPOProfile) (g : GrantRecord) : ℚ :=
  let who := pyLower g.who_can_apply
  if who = "" then 70
  else
    let score : ℤ := (eligibility_checks npo).foldl
      (fun s cb => if substr cb.1 who then (if cb.2 then s + 10 else s - 15) else s) 50
    ((min 100 score : ℤ) : ℚ)

/-- strptime(s, "%Y-%m-%d") followed by conversion to a day number
(days since 1970-01-01, proleptic Gregorian); none models the
ValueError on malformed input.  %Y requires exactly 4 digits, %m and %d
accept 1 or 2. -/
def parseYMD (s : String) : Option Int :=
  match splitOnCh '-' s.data with
  | [ys, ms, ds] =>
    if ys.all isDigitCh ∧ ys.length = 4 ∧
       ms.all isDigitCh ∧ 1 ≤ ms.length ∧ ms.length ≤ 2 ∧
       ds.all isDigitCh ∧ 1 ≤ ds.length ∧ ds.length ≤ 2 then
      let y := digitsToNat ys
      let m := digitsToNat ms
      let d := digitsToNat ds
      if 1 ≤ y ∧ 1 ≤ m ∧ m ≤ 12 ∧ 1 ≤ d ∧ d ≤ daysInMonth y m then
        let yy := if m ≤ 2 then y - 1 else y
        let era := yy / 400
        let yoe := yy % 400
        let mp := (m + 9) % 12
        let doy := (153 * mp + 2) / 5 + (d - 1)
        let doe := yoe * 365 + yoe / 4 - yoe / 100 + doy
        some ((era * 146097 + doe : Int) - 719468)
      else none
    else none
  | _ => none

/-- The end_date half of the try block of _score_timeline: reached when
the start_date check fell through.  today is the current wall-clock
time in days (datetime.now() can fall mid-day, so it is a rational);
(end - today).days is the floor of the difference. -/
def timelineEnd (today : ℚ) (ed : Option String) : ℚ :=
  if truthyS ed then
    match parseYMD (ed.getD "") with
    | none => 60
    | some e =>
      if (e : ℚ) < today then 0
      else
        let days_left := ⌊(e : ℚ) - today⌋
        if days_left < 7 then 30 else if days_left < 30 then 80 else 100
  else 60

/-- _score_timeline (score field only).  The current time is passed
explicitly (datetime.now() in the source); a strptime failure inside
the try block lands in the bare except and falls through to the final
60. -/
def score_timeline (today : ℚ) (npo : NPOProfile) (g : GrantRecord) : ℚ :=
  let aw := windowOf g
  if aw.is_open_all_year.getD false then 100
  else
    let sd := aw.start_date
    let ed := aw.end_date
    let urgency := pyLower npo.funding_urgency
    if ¬ truthyS sd ∧ ¬ truthyS ed then 60
    else
      if truthyS sd then
        match parseYMD (sd.getD "") with
        | none => 60
        | some st =>
          if today < (st : ℚ) then
            let days_until := ⌊(st : ℚ) - today⌋
            if urgency = "urgent" ∧ 30 < days_until then 40 else 70
          else timelineEnd today ed
      else timelineEnd today ed

def STOP_WORDS : List String :=
  ["the", "a", "an", "and", "or", "but", "in", "on", "at", "to", "for", "of", "with", "by"]

/-- re.findall(r"\w+", text): maximal runs of word characters. -/
def findWords : List Char → List Char → List String
  | [], acc => if acc = [] then [] else [⟨acc.reverse⟩]
  | c :: cs, acc =>
    if isWordCh c then findWords cs (c :: acc)
    else if acc = [] then findWords cs [] else (⟨acc.reverse⟩ : String) :: findWords cs []

/-- set(word for word in re.findall(r"\w+", text) if len(word) > 3 and
word not in stop_words), as a duplicate-free list. -/
def meaningfulWords (text : List Char) : List String :=
  ((findWords text []).filter
    (fun w => 3 < w.data.length && !(STOP_WORDS.contains w))).dedup

/-- _score_strategic_alignment (score field only). -/
def score_strategic_alignment (npo : NPOProfile) (g : GrantRecord) : ℚ :=
  let npo_mission := pyLower npo.mission
  let npo_description := pyLower npo.description
  let grant_about := pyLower g.about
  let grant_title := pyLower g.title
  if npo_mission = "" ∧ npo_description = "" then 50
  else if grant_about = "" then 50
  else
    let npo_words := meaningfulWords (npo_mission.data ++ ' ' :: npo_description.data)
    let grant_words := meaningfulWords (grant_about.data ++ ' ' :: grant_title.data)
    if npo_words = [] ∨ grant_words = [] then 50
    else
      let overlap := npo_words.filter (fun w => w ∈ grant_words)
      let overlap_rate : ℚ := (overlap.length : ℚ) / ((min npo_words.length grant_words.length : ℕ) : ℚ)
      round1 (min 100 (overlap_rate * 200))

/-- The six component scores of calculate_match_score. -/
structure ScoreSet where
  issue_area_match : ℚ
  scope_alignment : ℚ
  funding_fit : ℚ
  eligibility_match : ℚ
  timeline_urgency : ℚ
  strategic_fit : ℚ
deriving DecidableEq

def computeScores (today : ℚ) (npo : NPOProfile) (g : GrantRecord) : ScoreSet :=
  { issue_area_match := score_issue_areas npo g
    scope_alignment := score_scope_tags npo g
    funding_fit := score_funding npo g
    eligibility_match := score_eligibility npo g
    timeline_urgency := score_timeline today npo g
    strategic_fit := score_strategic_alignment npo g }

def scoreList (s : ScoreSet) : List ℚ :=
  [s.issue_area_match, s.scope_alignment, s.funding_fit,
   s.eligibility_match, s.timeline_urgency, s.strategic_fit]

/-- total_score = sum of score * weight over the six components. -/
def total_score (s : ScoreSet) : ℚ :=
  s.issue_area_match * 0.30 + s.scope_alignment * 0.20 + s.funding_fit * 0.20 +
  s.eligibility_match * 0.15 + s.timeline_urgency * 0.10 + s.strategic_fit * 0.05

/-- Adjustment: +5 for at least three component scores of 80 or more. -/
def strong_bonus (s : ScoreSet) : ℤ :=
  if 3 ≤ (scoreList s).countP (fun q => decide (80 ≤ q)) then 5 else 0

/-- Adjustment: -15 when the issue-area component score is exactly 0. -/
def missing_issue_penalty (s : ScoreSet) : ℤ :=
  if s.issue_area_match = 0 then -15 else 0

/-- Adjustment: +5 when the issue-area component score is exactly 100. -/
def perfect_issue_bonus (s : ScoreSet) : ℤ :=
  if s.issue_area_match = 100 then 5 else 0

/-- Adjustment: -20 when the timeline component score is exactly 0. -/
def closed_window_penalty (s : ScoreSet) : ℤ :=
  if s.timeline_urgency = 0 then -20 else 0

/-- _apply_adjustments: the four adjustments are accumulated into one
total (the source adds them to a running variable in this order). -/
def adjustments_total (s : ScoreSet) : ℤ :=
  strong_bonus s + missing_issue_penalty s + perfect_issue_bonus s + closed_window_penalty s

/-- final_score = max(0, min(100, total_score + adjustments)). -/
def final_score (today : ℚ) (npo : NPOProfile) (g : GrantRecord) : ℚ :=
  max 0 (min 100 (total_score (computeScores today npo g) +
    (adjustments_total (computeScores today npo g) : ℚ)))

/-- The match_score field of the returned dict: round(final_score, 1). -/
def rounded_match_score (today : ℚ) (npo : NPOProfile) (g : GrantRecord) : ℚ :=
  round1 (final_score today npo g)

/-- The grant_id computation of calculate_match_score:
grant.get("source_url", "").split("/")[-2] if source_url is truthy else
None.  split("/") on a string without a slash yields a single-element
list and [-2] raises IndexError; none models that uncaught exception. -/
def grantIdOf (g : GrantRecord) : Option (Option String) :=
  if g.source_url = "" then some none
  else
    let parts := (splitOnCh '/' g.source_url.data).map (fun l => (⟨l⟩ : String))
    if h : 2 ≤ parts.length then
      some (some (parts.get ⟨parts.length - 2, by omega⟩))
    else none

/-- The result dict of calculate_match_score.  The presentational
fields (confidence, detailed_scores, reasoning, strengths, concerns,
action_items) are pure functions of the component scores and adjust
only display text; they are omitted because no scored field depends on
them.  grant_data is none here and is filled in by the batch ranker. -/
structure MatchResult where
  grant_id : Option String
  grant_name : String
  agency : String
  match_score : ℚ
  component_scores : ScoreSet
  grant_url : String
  grant_data : Option GrantRecord
deriving DecidableEq

def buildMatch (today : ℚ) (npo : NPOProfile) (g : GrantRecord) (gid : Option String) :
    MatchResult :=
  { grant_id := gid
    grant_name := g.title
    agency := g.agency
    match_score := rounded_match_score today npo g
    component_scores := computeScores today npo g
    grant_url := g.source_url
    grant_data := none }

/-- calculate_match_score.  With well-typed inputs the only statement
that can raise is the grant_id index; none models that exception
propagating out of the call. -/
def calculate_match_score (today : ℚ) (npo : NPOProfile) (g : GrantRecord) :
    Option MatchResult :=
  (grantIdOf g).map (buildMatch today npo g)

/-- match_result["grant_data"] = grant, done by the batch loop. -/
def withGrantData (m : MatchResult) (g : GrantRecord) : MatchResult :=
  { m with grant_data := some g }

/-- The matches list accumulated by the loop of batch_match_grants: a
grant whose scoring raises is skipped (the except branch logs and
continues), every other grant contributes its match result in input
order. -/
def allMatches (today : ℚ) (npo : NPOProfile) (grants : List GrantRecord) : List MatchResult :=
  grants.filterMap (fun g => (calculate_match_score today npo g).map (fun m => withGrantData m g))

/-- Stable descending insertion by match_score: the inserted element
goes in front of the first strictly smaller key, hence behind every
earlier element with an equal key only if it came later -- here the
element being inserted is always the earliest of the remaining input,
so it goes in front of equal keys. -/
def insertByScore (m : MatchResult) : List MatchResult → List MatchResult
  | [] => [m]
  | x :: xs => if x.match_score ≤ m.match_score then m :: x :: xs else x :: insertByScore m xs

/-- matches.sort(key=lambda x: x["match_score"], reverse=True): a
stable descending sort.  Stable sorting has a unique result, so this
insertion sort has exactly the sorted list produced by the source. -/
def sortByScoreDesc : List MatchResult → List MatchResult
  | [] => []
  | x :: xs => insertByScore x (sortByScoreDesc xs)

/-- batch_match_grants: score every grant (skipping raised exceptions),
sort descending by match_score (stable), return the first top_n. -/
def batch_match_grants (today : ℚ) (npo : NPOProfile) (grants : List GrantRecord)
    (top_n : Nat := 20) : List MatchResult :=
  (sortByScoreDesc (allMatches today npo grants)).take top_n

/-!  Specification-side definitions.

For the refinement claims below a second definition written from the
wording of the specification (amended only where a counterexample
forces it) is compared with the definition taken from the source. -/

/-- The issue-area score as worded in the specification, amended with
the one-decimal rounding of the source: set cardinalities over the
normalised label sets, coverage = |matched| / |grant_areas|,
specificity = |matched| / |npo_areas|, zero when either set or the
intersection is empty. -/
def spec_issue_area_score (npo : NPOProfile) (g : GrantRecord) : ℚ :=
  let npoS : Finset String := (npo.issue_areas.map normArea).toFinset
  let grantS : Finset String := ((gpIssueAreas g).map normArea).toFinset
  let matched : Finset String := npoS ∩ grantS
  if npoS = ∅ ∨ grantS = ∅ ∨ matched = ∅ then 0
  else
    let coverage : ℚ := (matched.card : ℚ) / (grantS.card : ℚ)
    let specificity : ℚ := (matched.card : ℚ) / (npoS.card : ℚ)
    round1 ((coverage * 0.7 + specificity * 0.3) * 100)

/-- Per-phrase eligibility adjustment as worded in the claim: +10 when
the phrase occurs in the eligibility text and the NPO meets the
predicate, -15 when it occurs and the NPO does not, 0 otherwise. -/
def eligDelta (who : String) (cb : String × Bool) : ℤ :=
  if substr cb.1 who then (if cb.2 then 10 else -15) else 0

/-- The eligibility score as worded in the claim: base 50 plus the sum
of the five per-phrase adjustments, clamped from above at 100 (no lower
clamp). -/
def spec_eligibility_score (npo : NPOProfile) (g : GrantRecord) : ℚ :=
  let who := pyLower g.who_can_apply
  ((min 100 (50 + ((eligibility_checks npo).map (eligDelta who)).sum) : ℤ) : ℚ)

/-!  Concrete inputs used by witnesses and counterexamples. -/

/-- A neutral NPO profile: every text field empty, no funding bounds
beyond the dict defaults. -/
def npoBase : NPOProfile :=
  { organization_type := ""
    registration_status := ""
    issue_areas := []
    project_types := []
    funding_min := 0
    funding_max := none
    funding_urgency := "medium"
    mission := ""
    description := "" }

/-- A grant record with every field empty and no grant profile. -/
def grantBase : GrantRecord :=
  { title := ""
    agency := ""
    about := ""
    who_can_apply := ""
    source_url := ""
    grant_profile := none }

/-- A grant profile with empty taxonomies and all-none sub-records. -/
def profileBase : GrantProfile :=
  { issue_areas := [], scope_tags := [], funding := emptyFunding,
    application_window := emptyWindow }

/-- NPO used by the C1 and C5 witnesses. -/
def npoW : NPOProfile :=
  { npoBase with
    organization_type := "charity"
    registration_status := "registered charity"
    issue_areas := ["Ageing"]
    funding_min := 5000
    funding_max := some 20000
    mission := "support for seniors" }

/-- Grant used by the C1 and C5 witnesses; its source_url contains
slashes, so the grant_id index succeeds (parts[-2] = "silver"). -/
def gW : GrantRecord :=
  { grantBase with
    title := "Community Silver Fund"
    agency := "MOH"
    about := "support for seniors in the community"
    who_can_apply := "registered charity"
    source_url := "https://oursggrants.gov.sg/grants/silver/view"
    grant_profile := some
      { profileBase with
        issue_areas := ["ageing", "health"]
        funding := { emptyFunding with cap_amount_sgd := some 15000 }
        application_window := { emptyWindow with is_open_all_year := some true } } }

/-- Grant whose source_url is non-empty but has no slash: split("/")
has one element and the [-2] index raises, so scoring this grant
raises. -/
def gBad : GrantRecord := { grantBase with title := "Broken", source_url := "nogslash" }

/-- NPO with exactly one issue area (C2 counterexample). -/
def npoC2 : NPOProfile := { npoBase with issue_areas := ["a"] }

/-- Grant with three issue areas, one of which matches npoC2
(coverage 1/3, specificity 1). -/
def gC2 : GrantRecord :=
  { grantBase with grant_profile := some { profileBase with issue_areas := ["a", "b", "c"] } }

/-- NPO with funding needs 5000..20000 (C3 counterexample). -/
def npoC3 : NPOProfile := { npoBase with funding_min := 5000, funding_max := some 20000 }

/-- Funding record with a cap of 15000 and nothing else. -/
def fundCap15000 : FundingInfo := { emptyFunding with cap_amount_sgd := some 15000 }

/-- Grant profile carrying only the 15000 cap. -/
def profC3 : GrantProfile := { profileBase with funding := fundCap15000 }

/-- Grant with a funding cap of 15000, strictly between the needs of
npoC3 (interpolation branch). -/
def gC3 : GrantRecord := { grantBase with grant_profile := some profC3 }

/-- Grant whose eligibility text contains four phrase triggers
(including "registered" as a substring of "registered charity") but not
"singapore"; against npoBase all four fail: 50 - 4 * 15 = -10. -/
def gNeg : GrantRecord :=
  { grantBase with who_can_apply := "registered charity non-profit social service" }

/-- Funding record with a cap of exactly 0. -/
def fundCap0 : FundingInfo := { emptyFunding with cap_amount_sgd := some 0 }

/-- Funding record with a percentage of exactly 0. -/
def fundPct0 : FundingInfo := { emptyFunding with percent_max := some 0 }

/-- Grant profile carrying only the zero cap. -/
def profCap0 : GrantProfile := { profileBase with funding := fundCap0 }

/-- Grant profile carrying only the zero percentage. -/
def profPct0 : GrantProfile := { profileBase with funding := fundPct0 }

/-- Grant with a cap of exactly 0 and no percentage (C10). -/
def gCap0 : GrantRecord := { grantBase with grant_profile := some profCap0 }

/-- Grant with a percentage of exactly 0 and no cap (C10). -/
def gPct0 : GrantRecord := { grantBase with grant_profile := some profPct0 }

/-- Application-window text with two extractable dates (C8 witness). -/
def tWindow : String := "Apply from 1 Jan 2024 to 15 Mar 2024"

/-!  Lemmas about one-decimal rounding. -/

lemma rhe_ge_floor (y : ℚ) : ⌊y⌋ ≤ rhe y := by
  unfold rhe
  split
  · exact le_refl _
  · split
    · omega
    · split <;> omega

lemma rhe_le_of_le {y : ℚ} {n : ℤ} (h : y ≤ (n : ℚ)) : rhe y ≤ n := by
  have hfl : ⌊y⌋ ≤ n := by
    have := Int.floor_le_floor h
    simpa using this
  have hcase : 1 / 2 ≤ y - ⌊y⌋ → ⌊y⌋ + 1 ≤ n := by
    intro hr
    have h1 : (⌊y⌋ : ℚ) + 1 / 2 ≤ y := by linarith
    have h2 : (⌊y⌋ : ℚ) < n := by linarith
    have : ⌊y⌋ < n := by exact_mod_cast h2
    omega
  unfold rhe
  split
  · exact hfl
  · split
    · exact hcase (by linarith)
    · split
      · exact hfl
      · exact hcase (by linarith)

lemma rhe_ge_of_ge {y : ℚ} {n : ℤ} (h : (n : ℚ) ≤ y) : n ≤ rhe y := by
  have : n ≤ ⌊y⌋ := Int.le_floor.mpr h
  exact le_trans this (rhe_ge_floor y)

lemma round1_nonneg {x : ℚ} (h : 0 ≤ x) : 0 ≤ round1 x := by
  unfold round1
  have h10 : (0 : ℚ) ≤ 10 * x := by linarith
  have : (0 : ℤ) ≤ rhe (10 * x) := rhe_ge_of_ge (by exact_mod_cast h10)
  have : (0 : ℚ) ≤ (rhe (10 * x) : ℚ) := by exact_mod_cast this
  linarith

lemma round1_le_100 {x : ℚ} (h : x ≤ 100) : round1 x ≤ 100 := by
  unfold round1
  have h10 : 10 * x ≤ ((1000 : ℤ) : ℚ) := by push_cast; linarith
  have : rhe (10 * x) ≤ 1000 := rhe_le_of_le h10
  have : (rhe (10 * x) : ℚ) ≤ 1000 := by exact_mod_cast this
  linarith

lemma final_score_nonneg (today : ℚ) (npo : NPOProfile) (g : GrantRecord) :
    0 ≤ final_score today npo g := le_max_left 0 _

lemma final_score_le_100 (today : ℚ) (npo : NPOProfile) (g : GrantRecord) :
    final_score today npo g ≤ 100 := by
  unfold final_score
  exact max_le (by norm_num) (min_le_left _ _)

/-- C1.  For every NPO profile and grant record, the match_score field
of the result returned by calculate_match_score lies in [0, 100]: the
weighted component sum plus adjustments is clamped with
max(0, min(100, .)) before the one-decimal rounding, so the returned
score is bounded even when the un-clamped value falls outside the
range. -/
theorem C1_match_score_in_range (today : ℚ) (npo : NPOProfile) (g : GrantRecord)
    (m : MatchResult) (h : calculate_match_score today npo g = some m) :
    0 ≤ m.match_score ∧ m.match_score ≤ 100 := by
  unfold calculate_match_score at h
  obtain ⟨gid, hgid, hm⟩ := Option.map_eq_some'.mp h
  have hms : m.match_score = rounded_match_score today npo g := by
    rw [← hm]; rfl
  rw [hms]
  unfold rounded_match_score
  exact ⟨round1_nonneg (final_score_nonneg today npo g),
         round1_le_100 (final_score_le_100 today npo g)⟩

/-- Witness for C1: the theorem applied to a concrete NPO and grant at
a concrete evaluation time; the grant_id hypothesis is discharged by
computation. -/
theorem C1_witness :
    0 ≤ (buildMatch 20000 npoW gW (some "silver")).match_score ∧
      (buildMatch 20000 npoW gW (some "silver")).match_score ≤ 100 :=
  C1_match_score_in_range 20000 npoW gW (buildMatch 20000 npoW gW (some "silver")) rfl

/-!  Lemmas about the stable descending sort of the batch ranker. -/

lemma insertByScore_perm (m : MatchResult) (t : List MatchResult) :
    List.Perm (insertByScore m t) (m :: t) := by
  induction t with
  | nil => exact List.Perm.refl _
  | cons x xs ih =>
    unfold insertByScore
    split
    · exact List.Perm.refl _
    · exact (ih.cons x).trans (List.Perm.swap m x xs)

lemma pairwise_insertByScore {m : MatchResult} {t : List MatchResult}
    (h : t.Pairwise (fun a b => b.match_score ≤ a.match_score)) :
    (insertByScore m t).Pairwise (fun a b => b.match_score ≤ a.match_score) := by
  induction t with
  | nil => simp [insertByScore]
  | cons x xs ih =>
    rw [List.pairwise_cons] at h
    obtain ⟨hx, hxs⟩ := h
    unfold insertByScore
    split
    · rename_i hle
      rw [List.pairwise_cons]
      refine ⟨?_, List.pairwise_cons.mpr ⟨hx, hxs⟩⟩
      intro b hb
      rcases List.mem_cons.mp hb with rfl | hb2
      · exact hle
      · exact le_trans (hx b hb2) hle
    · rename_i hgt
      push_neg at hgt
      rw [List.pairwise_cons]
      refine ⟨?_, ih hxs⟩
      intro b hb
      have hb2 := (insertByScore_perm m xs).mem_iff.mp hb
      rcases List.mem_cons.mp hb2 with rfl | hb3
      · exact le_of_lt hgt
      · exact hx b hb3

lemma filter_insertByScore (s : ℚ) (m : MatchResult) (t : List MatchResult) :
    (insertByScore m t).filter (fun x => decide (x.match_score = s)) =
      (m :: t).filter (fun x => decide (x.match_score = s)) := by
  induction t with
  | nil => rfl
  | cons x xs ih =>
    unfold insertByScore
    split
    · rfl
    · rename_i hgt
      push_neg at hgt
      by_cases hm : m.match_score = s
      · have hx : ¬ x.match_score = s := by
          intro hxe
          rw [hxe, ← hm] at hgt
          exact lt_irrefl _ hgt
        simp only [List.filter_cons, ih, hm, hx]
        simp
      · simp only [List.filter_cons, ih, hm]
        simp [hm]

lemma sortByScoreDesc_perm (l : List MatchResult) :
    List.Perm (sortByScoreDesc l) l := by
  induction l with
  | nil => exact List.Perm.refl _
  | cons x xs ih =>
    exact (insertByScore_perm x (sortByScoreDesc xs)).trans (ih.cons x)

lemma sortByScoreDesc_pairwise (l : List MatchResult) :
    (sortByScoreDesc l).Pairwise (fun a b => b.match_score ≤ a.match_score) := by
  induction l with
  | nil => simp [sortByScoreDesc]
  | cons x xs ih => exact pairwise_insertByScore ih

lemma sortByScoreDesc_filter (s : ℚ) (l : List MatchResult) :
    (sortByScoreDesc l).filter (fun x => decide (x.match_score = s)) =
      l.filter (fun x => decide (x.match_score = s)) := by
  induction l with
  | nil => rfl
  | cons x xs ih =>
    unfold sortByScoreDesc
    rw [filter_insertByScore, List.filter_cons, List.filter_cons, ih]

lemma filter_take_append {α : Type} (p : α → Bool) :
    ∀ (n : Nat) (l : List α), ∃ t, (l.take n).filter p ++ t = l.filter p := by
  intro n l
  induction l generalizing n with
  | nil => exact ⟨[], by simp⟩
  | cons x xs ih =>
    cases n with
    | zero => exact ⟨(x :: xs).filter p, by simp⟩
    | succ k =>
      obtain ⟨t, ht⟩ := ih k
      refine ⟨t, ?_⟩
      rw [List.take_succ_cons, List.filter_cons, List.filter_cons]
      cases hp : p x
      · simpa using ht
      · simpa using ht

/-- C4.  For every NPO profile, grant list and top_n, the list returned
by batch_match_grants is sorted in non-increasing order of match_score,
has length at most top_n (the source default is 20), and for every
score value the results carrying that score form a prefix of the
equally-scored matches in input order: the sort is stable, so ties keep
the original order of the grants. -/
theorem C4_batch_sorted_truncated (today : ℚ) (npo : NPOProfile)
    (grants : List GrantRecord) (top_n : Nat) :
    (batch_match_grants today npo grants top_n).Pairwise
        (fun a b => b.match_score ≤ a.match_score) ∧
    (batch_match_grants today npo grants top_n).length ≤ top_n ∧
    ∀ s : ℚ, ∃ t,
      (batch_match_grants today npo grants top_n).filter
          (fun m => decide (m.match_score = s)) ++ t =
        (allMatches today npo grants).filter (fun m => decide (m.match_score = s)) := by
  refine ⟨?_, ?_, ?_⟩
  · exact (sortByScoreDesc_pairwise _).sublist (List.take_sublist top_n _)
  · unfold batch_match_grants
    rw [List.length_take]
    exact min_le_left _ _
  · intro s
    obtain ⟨t, ht⟩ :=
      filter_take_append (fun m => decide (m.match_score = s)) top_n
        (sortByScoreDesc (allMatches today npo grants))
    exact ⟨t, by rw [batch_match_grants, ht, sortByScoreDesc_filter]⟩

/-- C5.  The batch ranker never fails as a whole: its accumulated
matches list consists exactly of the grants whose scoring succeeds (in
input order), a grant whose scoring raises (modelled by
calculate_match_score returning none, which happens exactly when the
grant_id index raises) contributes nothing, and every other grant is
still scored and considered. -/
theorem C5_batch_isolates_failures (today : ℚ) (npo : NPOProfile)
    (grants : List GrantRecord) :
    (∀ m ∈ allMatches today npo grants, ∃ g ∈ grants, ∃ gid,
        grantIdOf g = some gid ∧ m = withGrantData (buildMatch today npo g gid) g) ∧
    (∀ g ∈ grants, ∀ gid, grantIdOf g = some gid →
        withGrantData (buildMatch today npo g gid) g ∈ allMatches today npo grants) ∧
    (∀ g : GrantRecord, grantIdOf g = none →
        ∀ m ∈ allMatches today npo grants, m.grant_data ≠ some g) := by
  have hchar : ∀ m, m ∈ allMatches today npo grants ↔
      ∃ g ∈ grants, ∃ gid, grantIdOf g = some gid ∧
        m = withGrantData (buildMatch today npo g gid) g := by
    intro m
    unfold allMatches calculate_match_score
    rw [List.mem_filterMap]
    constructor
    · rintro ⟨g, hg, hsome⟩
      obtain ⟨mr, hmr, hwrap⟩ := Option.map_eq_some'.mp hsome
      obtain ⟨gid, hgid, hbuild⟩ := Option.map_eq_some'.mp hmr
      exact ⟨g, hg, gid, hgid, by rw [← hwrap, ← hbuild]⟩
    · rintro ⟨g, hg, gid, hgid, rfl⟩
      exact ⟨g, hg, by rw [hgid]; rfl⟩
  refine ⟨fun m hm => (hchar m).mp hm, ?_, ?_⟩
  · intro g hg gid hgid
    exact (hchar _).mpr ⟨g, hg, gid, hgid, rfl⟩
  · intro g hgnone m hm hdata
    obtain ⟨g2, hg2, gid, hgid, hmeq⟩ := (hchar m).mp hm
    have : m.grant_data = some g2 := by rw [hmeq]; rfl
    rw [this] at hdata
    have : g2 = g := Option.some_injective _ hdata
    rw [this, hgnone] at hgid
    exact Option.noConfusion hgid

/-- Witness for C5: in a batch containing a scorable grant and a grant
whose grant_id index raises, the scorable grant is still considered;
the membership and grant_id hypotheses are discharged by computation. -/
theorem C5_witness :
    withGrantData (buildMatch 20000 npoW gW (some "silver")) gW ∈
      allMatches 20000 npoW [gW, gBad] :=
  (C5_batch_isolates_failures 20000 npoW [gW, gBad]).2.1 gW
    (List.mem_cons_self gW [gBad]) (some "silver") rfl

/-- C7.  When either side has an empty issue-area list, the issue-area
component score is 0 and the adjustment stage applies the -15 penalty
for missing issue-area overlap (missing_issue_penalty is the summand of
adjustments_total that final_score adds in). -/
theorem C7_empty_issue_areas (today : ℚ) (npo : NPOProfile) (g : GrantRecord)
    (h : npo.issue_areas = [] ∨ gpIssueAreas g = []) :
    score_issue_areas npo g = 0 ∧
      missing_issue_penalty (computeScores today npo g) = -15 := by
  have hz : score_issue_areas npo g = 0 := by
    unfold score_issue_areas
    rcases h with h | h
    · have hn : npoAreaSet npo = [] := by unfold npoAreaSet; rw [h]; rfl
      simp [hn]
    · have hg : grantAreaSet g = [] := by unfold grantAreaSet; rw [h]; rfl
      simp [hg]
  refine ⟨hz, ?_⟩
  unfold missing_issue_penalty computeScores
  simp [hz]

/-- Witness for C7: an NPO with no issue areas against a grant with
issue areas; the emptiness hypothesis is discharged by computation. -/
theorem C7_witness :
    score_issue_areas npoBase gW = 0 ∧
      missing_issue_penalty (computeScores 20000 npoBase gW) = -15 :=
  C7_empty_issue_areas 20000 npoBase gW (Or.inl rfl)

/-- C10.  The funding scorer tests cap_amount_sgd and percent_max with
Python truthiness, so the value 0 is treated like an absent value: a
cap of 0 with no percentage takes the "not specified" branch and scores
70 (not 20), and a percentage of 0 with no cap also scores 70 (not 0). -/
theorem C10_zero_funding_treated_absent (npo : NPOProfile) (g : GrantRecord) :
    ((fundingOf g).cap_amount_sgd = some 0 → (fundingOf g).percent_max = none →
        score_funding npo g = 70) ∧
    ((fundingOf g).percent_max = some 0 → (fundingOf g).cap_amount_sgd = none →
        score_funding npo g = 70) := by
  constructor
  · intro hc hp
    simp [score_funding, hc, hp, truthyQ]
  · intro hp hc
    simp [score_funding, hc, hp, truthyQ]

/-- Witness for C10: concrete grants carrying cap 0 and percentage 0;
the field hypotheses are discharged by computation. -/
theorem C10_witness :
    score_funding npoBase gCap0 = 70 ∧ score_funding npoBase gPct0 = 70 :=
  ⟨(C10_zero_funding_treated_absent npoBase gCap0).1 rfl rfl,
   (C10_zero_funding_treated_absent npoBase gPct0).2 rfl rfl⟩

/-- C3 (amended).  The funding-fit score by cases, with the one-decimal
rounding the source applies on the interpolation and percentage
branches: 70 when neither a (truthy) cap nor a (truthy) percentage is
present; with a cap below funding_min, 20; with a cap at or above a
finite funding_max, 100; with a cap strictly between, the rounded
linear interpolation 50 + 50 * (cap - min) / (max - min); with only a
percentage, the rounded percentage taken directly on the 0-100 scale.
(The else 60 fallback of the source is unreachable: some case above
always applies.) -/
theorem C3_funding_fit_cases (npo : NPOProfile) (g : GrantRecord) :
    (truthyQ (fundingOf g).cap_amount_sgd = false →
     truthyQ (fundingOf g).percent_max = false →
        score_funding npo g = 70) ∧
    (∀ c : ℚ, (fundingOf g).cap_amount_sgd = some c → c ≠ 0 →
        c < npo.funding_min → score_funding npo g = 20) ∧
    (∀ c mx : ℚ, (fundingOf g).cap_amount_sgd = some c → c ≠ 0 →
        ¬ c < npo.funding_min → npo.funding_max = some mx → mx ≤ c →
        score_funding npo g = 100) ∧
    (∀ c mx : ℚ, (fundingOf g).cap_amount_sgd = some c → c ≠ 0 →
        ¬ c < npo.funding_min → npo.funding_max = some mx → ¬ mx ≤ c →
        score_funding npo g =
          round1 (50 + 50 * ((c - npo.funding_min) / (mx - npo.funding_min)))) ∧
    (truthyQ (fundingOf g).cap_amount_sgd = false →
        ∀ p : ℚ, (fundingOf g).percent_max = some p → p ≠ 0 →
        score_funding npo g = round1 p) := by
  refine ⟨?_, ?_, ?_, ?_, ?_⟩
  · intro hc hp
    simp [score_funding, hc, hp]
  · intro c hc hc0 hlt
    simp [score_funding, hc, truthyQ, hc0, hlt]
  · intro c mx hc hc0 hge hmx hle
    simp [score_funding, hc, truthyQ, hc0, hge, hmx, hle]
  · intro c mx hc hc0 hge hmx hlt
    have hmin : npo.funding_min < mx := lt_of_le_of_lt (not_lt.mp hge) (not_le.mp hlt)
    simp only [score_funding, hc, hmx, truthyQ]
    simp [hc0, hge, hlt, hmin, mul_comm]
  · intro hc p hp hp0
    have hpq : (p / 100) * 100 = p := div_mul_cancel₀ p (by norm_num)
    have htp : truthyQ (some p) = true := by simp [truthyQ, hp0]
    simp [score_funding, hc, hp, htp, hpq]

/-- Counterexample for C3 as stated: with funding needs 5000..20000 and
a cap of 15000 the source returns the interpolation rounded to one
decimal, 83.3, which differs from the exact value
50 + 50 * (15000 - 5000) / (20000 - 5000) = 250/3 claimed by the
specification. -/
theorem C3_counterexample :
    (fundingOf gC3).cap_amount_sgd = some 15000 ∧
    npoC3.funding_min = 5000 ∧ npoC3.funding_max = some 20000 ∧
    score_funding npoC3 gC3 ≠
      50 + 50 * ((15000 - 5000) / ((20000 : ℚ) - 5000)) := by
  refine ⟨rfl, rfl, rfl, ?_⟩
  have h : score_funding npoC3 gC3 =
      round1 (50 + 50 * (((15000 : ℚ) - 5000) / (20000 - 5000))) :=
    (C3_funding_fit_cases npoC3 gC3).2.2.2.1 15000 20000 rfl (by decide)
      (by decide) rfl (by decide)
  rw [h, round1, rhe]
  norm_num

/-- Witness for C3: the interpolation case of the theorem applied to
the concrete 5000..20000 NPO and the 15000-cap grant, with every
hypothesis discharged by computation. -/
theorem C3_witness :
    score_funding npoC3 gC3 =
      round1 (50 + 50 * (((15000 : ℚ) - 5000) / (20000 - 5000))) :=
  (C3_funding_fit_cases npoC3 gC3).2.2.2.1 15000 20000 rfl (by decide)
    (by decide) rfl (by decide)

/-- The eligibility foldl accumulates exactly the sum of the per-phrase
adjustments on top of its initial value. -/
lemma foldl_eligDelta (who : String) :
    ∀ (l : List (String × Bool)) (init : ℤ),
      l.foldl (fun s cb => if substr cb.1 who then (if cb.2 then s + 10 else s - 15) else s)
          init =
        init + (l.map (eligDelta who)).sum := by
  intro l
  induction l with
  | nil => intro init; simp
  | cons cb t ih =>
    intro init
    rw [List.foldl_cons, ih, List.map_cons, List.sum_cons]
    have hstep :
        (if substr cb.1 who then (if cb.2 then init + 10 else init - 15) else init) =
          init + eligDelta who cb := by
      unfold eligDelta
      split
      · split <;> ring
      · ring
    rw [hstep]
    ring

/-- C6 (amended).  For a grant whose eligibility text is non-empty, the
eligibility score is exactly base 50 plus, for each of the five fixed
phrases occurring in the text, +10 when the NPO satisfies the matching
predicate and -15 otherwise, clamped from above at 100 with no lower
clamp; and for some inputs the score is negative.  (The amendment: a
grant with an empty eligibility text is scored 70 by an early return,
not by the base-50 formula.) -/
theorem C6_eligibility_base_formula :
    (∀ (npo : NPOProfile) (g : GrantRecord), pyLower g.who_can_apply ≠ "" →
        score_eligibility npo g = spec_eligibility_score npo g) ∧
    score_eligibility npoBase gNeg < 0 := by
  constructor
  · intro npo g hwho
    simp only [score_eligibility, spec_eligibility_score, if_neg hwho]
    rw [foldl_eligDelta]
  · decide

/-- Witness for C6: the non-empty-text hypothesis discharged by
computation on a grant whose eligibility text carries four failing
phrase triggers. -/
theorem C6_witness :
    score_eligibility npoBase gNeg = spec_eligibility_score npoBase gNeg :=
  C6_eligibility_base_formula.1 npoBase gNeg (by decide)

/-- Counterexample for C6 as stated: with an empty eligibility text no
phrase occurs, so the claimed base-50 computation yields 50, but the
source takes an early return and scores 70. -/
theorem C6_counterexample :
    pyLower grantBase.who_can_apply = "" ∧
    score_eligibility npoBase grantBase = 70 ∧
    spec_eligibility_score npoBase grantBase = 50 ∧
    (70 : ℚ) ≠ 50 :=
  ⟨rfl, by decide, by decide, by norm_num⟩

/-- The matched list of the source (filter of the deduplicated NPO
labels by membership in the deduplicated grant labels) has the
cardinality of the set intersection. -/
lemma dedup_filter_inter_card (l1 l2 : List String) :
    (l1.dedup.filter (fun a => a ∈ l2.dedup)).length =
      (l1.toFinset ∩ l2.toFinset).card := by
  have hnod : (l1.dedup.filter (fun a => a ∈ l2.dedup)).Nodup :=
    l1.nodup_dedup.filter _
  rw [← List.toFinset_card_of_nodup hnod]
  congr 1
  ext a
  simp [List.mem_toFinset, List.mem_filter, List.mem_dedup, Finset.mem_inter]

/-- The matched list is empty exactly when the set intersection is. -/
lemma dedup_filter_inter_empty (l1 l2 : List String) :
    l1.dedup.filter (fun a => a ∈ l2.dedup) = [] ↔
      l1.toFinset ∩ l2.toFinset = ∅ := by
  rw [← List.length_eq_zero, ← Finset.card_eq_zero, dedup_filter_inter_card]

/-- C2 (amended).  The issue-area component score of the source equals
the specification formula computed with set cardinalities -- coverage
0.7 plus specificity 0.3, scaled to 100 and rounded to one decimal,
with 0 whenever either normalised label set or their intersection is
empty.  (The amendment relative to the claim: the source rounds the
formula value to one decimal.) -/
theorem C2_issue_area_formula (npo : NPOProfile) (g : GrantRecord) :
    score_issue_areas npo g = spec_issue_area_score npo g := by
  have hc := dedup_filter_inter_card (npo.issue_areas.map normArea)
    ((gpIssueAreas g).map normArea)
  have he := dedup_filter_inter_empty (npo.issue_areas.map normArea)
    ((gpIssueAreas g).map normArea)
  simp only [score_issue_areas, spec_issue_area_score, npoAreaSet, grantAreaSet]
  by_cases h1 : (npo.issue_areas.map normArea).dedup = []
  · have h1f : (npo.issue_areas.map normArea).toFinset = ∅ := by
      rw [List.toFinset_eq_empty_iff, ← List.dedup_eq_nil]
      exact h1
    rw [if_pos (Or.inl h1), if_pos (Or.inl h1f)]
  · have h1f : ¬ (npo.issue_areas.map normArea).toFinset = ∅ := by
      rw [List.toFinset_eq_empty_iff, ← List.dedup_eq_nil]
      exact h1
    by_cases h2 : ((gpIssueAreas g).map normArea).dedup = []
    · have h2f : ((gpIssueAreas g).map normArea).toFinset = ∅ := by
        rw [List.toFinset_eq_empty_iff, ← List.dedup_eq_nil]
        exact h2
      rw [if_pos (Or.inr h2), if_pos (Or.inr (Or.inl h2f))]
    · have h2f : ¬ ((gpIssueAreas g).map normArea).toFinset = ∅ := by
        rw [List.toFinset_eq_empty_iff, ← List.dedup_eq_nil]
        exact h2
      by_cases hm : (npo.issue_areas.map normArea).dedup.filter
          (fun a => a ∈ ((gpIssueAreas g).map normArea).dedup) = []
      · have hmf := he.mp hm
        rw [if_neg (by simp [h1, h2]), if_pos hm, if_pos (Or.inr (Or.inr hmf))]
      · have hmf : ¬ (npo.issue_areas.map normArea).toFinset ∩
            ((gpIssueAreas g).map normArea).toFinset = ∅ :=
          fun hx => hm (he.mpr hx)
        rw [if_neg (by simp [h1, h2]), if_neg hm, if_neg (by simp [h1f, h2f, hmf])]
        rw [List.card_toFinset, List.card_toFinset, ← hc]

/-- Counterexample for C2 as stated: one NPO area matching one of three
grant areas gives coverage 1/3 and specificity 1, so the claimed exact
formula value is (1/3 * 0.7 + 1 * 0.3) * 100 = 160/3, but the source
rounds to one decimal and returns 53.3. -/
theorem C2_counterexample :
    (npoAreaSet npoC2).length = 1 ∧ (grantAreaSet gC2).length = 3 ∧
    ((npoAreaSet npoC2).filter (fun a => a ∈ grantAreaSet gC2)).length = 1 ∧
    score_issue_areas npoC2 gC2 ≠ ((1 / 3 : ℚ) * 0.7 + (1 / 1) * 0.3) * 100 := by
  refine ⟨by decide, by decide, by decide, ?_⟩
  have h : score_issue_areas npoC2 gC2 =
      round1 ((((1 : ℚ) / 3) * 0.7 + ((1 : ℚ) / 1) * 0.3) * 100) := rfl
  rw [h, round1, rhe]
  norm_num

/-!  Lemmas about the ascending date sort. -/

lemma insStr_perm (s : String) (l : List String) :
    List.Perm (insStr s l) (s :: l) := by
  induction l with
  | nil => exact List.Perm.refl _
  | cons x xs ih =>
    unfold insStr
    split
    · exact List.Perm.refl _
    · exact (ih.cons x).trans (List.Perm.swap s x xs)

lemma sortStrAsc_perm (l : List String) : List.Perm (sortStrAsc l) l := by
  induction l with
  | nil => exact List.Perm.refl _
  | cons x xs ih =>
    exact (insStr_perm x (sortStrAsc xs)).trans (ih.cons x)

lemma pairwise_insStr {s : String} {l : List String} (h : l.Pairwise strLe) :
    (insStr s l).Pairwise strLe := by
  induction l with
  | nil => simp [insStr, strLe]
  | cons x xs ih =>
    rw [List.pairwise_cons] at h
    obtain ⟨hx, hxs⟩ := h
    unfold insStr
    split
    · rename_i hle
      rw [List.pairwise_cons]
      refine ⟨?_, List.pairwise_cons.mpr ⟨hx, hxs⟩⟩
      intro b hb
      rcases List.mem_cons.mp hb with rfl | hb2
      · exact hle
      · exact le_trans hle (hx b hb2)
    · rename_i hgt
      have hgt2 : ¬ s.data ≤ x.data := hgt
      have hxs2 : strLe x s := le_of_lt (not_le.mp hgt2)
      rw [List.pairwise_cons]
      refine ⟨?_, ih hxs⟩
      intro b hb
      have hb2 := (insStr_perm s xs).mem_iff.mp hb
      rcases List.mem_cons.mp hb2 with rfl | hb3
      · exact hxs2
      · exact hx b hb3

lemma sortStrAsc_pairwise (l : List String) : (sortStrAsc l).Pairwise strLe := by
  induction l with
  | nil => simp [sortStrAsc]
  | cons x xs ih => exact pairwise_insStr ih

lemma getLast?_mem_own : ∀ (l : List String) (e : String), l.getLast? = some e → e ∈ l := by
  intro l
  induction l with
  | nil => intro e h; exact Option.noConfusion h
  | cons x xs ih =>
    intro e h
    cases xs with
    | nil =>
      have : x = e := by simpa using h
      rw [this]; exact List.mem_cons_self e []
    | cons y t =>
      rw [List.getLast?_cons_cons] at h
      exact List.mem_cons_of_mem x (ih e h)

lemma pairwise_getLast_max :
    ∀ (l : List String), l.Pairwise strLe → ∀ (e : String), l.getLast? = some e →
      ∀ d ∈ l, strLe d e := by
  intro l
  induction l with
  | nil => intro _ e h; exact Option.noConfusion h
  | cons x xs ih =>
    intro hp e h d hd
    rw [List.pairwise_cons] at hp
    obtain ⟨hx, hxs⟩ := hp
    cases xs with
    | nil =>
      have he : x = e := by simpa using h
      have hdx : d = x := by simpa using hd
      rw [hdx, he]
      exact le_refl e.data
    | cons y t =>
      rw [List.getLast?_cons_cons] at h
      rcases List.mem_cons.mp hd with rfl | hd2
      · exact hx e (getLast?_mem_own (y :: t) e h)
      · exact ih hxs e h d hd2

/-- C8.  For every input text the application-window extractor returns
a duplicate-free date list sorted ascending (in the string order the
source sorts by, which on ISO dates is chronological), containing
exactly the extracted dates; start_date is the head (the earliest
date), end_date is the last date when at least two distinct dates exist
and equals start_date otherwise, so start_date is at most end_date
whenever both are present; and every field is null when the cleaned
input text is empty. -/
theorem C8_application_window_invariants (text : String) :
    (extract_application_window text).dates.Nodup ∧
    (extract_application_window text).dates.Pairwise strLe ∧
    (∀ d, d ∈ (extract_application_window text).dates ↔
        d ∈ extractedDates (clean text)) ∧
    (extract_application_window text).start_date =
      (extract_application_window text).dates.head? ∧
    (∀ s, (extract_application_window text).start_date = some s →
        ∀ d ∈ (extract_application_window text).dates, strLe s d) ∧
    (2 ≤ (extract_application_window text).dates.length →
        (extract_application_window text).end_date =
          (extract_application_window text).dates.getLast?) ∧
    ((extract_application_window text).dates.length < 2 →
        (extract_application_window text).end_date =
          (extract_application_window text).start_date) ∧
    (∀ e, (extract_application_window text).end_date = some e →
        ∀ d ∈ (extract_application_window text).dates, strLe d e) ∧
    (∀ s e, (extract_application_window text).start_date = some s →
        (extract_application_window text).end_date = some e → strLe s e) ∧
    (clean text = "" → extract_application_window text = emptyWindow) := by
  by_cases hne : clean text = ""
  · have hw : extract_application_window text = emptyWindow := by
      simp only [extract_application_window]
      rw [if_pos hne]
    rw [hw]
    have hex : extractedDates (clean text) = [] := by rw [hne]; rfl
    refine ⟨List.nodup_nil, List.Pairwise.nil, ?_, rfl, ?_, ?_, ?_, ?_, ?_, fun _ => rfl⟩
    · intro d
      rw [hex]
      exact Iff.rfl
    · intro s hs
      exact Option.noConfusion hs
    · intro h2
      simp [emptyWindow] at h2
    · intro _
      rfl
    · intro e he
      exact Option.noConfusion he
    · intro s e hs
      exact Option.noConfusion hs
  · have hdates : (extract_application_window text).dates =
        sortStrAsc (extractedDates (clean text)).dedup := by
      simp only [extract_application_window]
      rw [if_neg hne]
    have hstart : (extract_application_window text).start_date =
        (extract_application_window text).dates.head? := by
      simp only [extract_application_window]
      rw [if_neg hne]
    have hend : (extract_application_window text).end_date =
        (if 2 ≤ (extract_application_window text).dates.length then
          (extract_application_window text).dates.getLast?
        else (extract_application_window text).dates.head?) := by
      simp only [extract_application_window]
      rw [if_neg hne]
    have hperm := sortStrAsc_perm (extractedDates (clean text)).dedup
    have hpw := sortStrAsc_pairwise (extractedDates (clean text)).dedup
    rw [← hdates] at hperm hpw
    have hnd : (extract_application_window text).dates.Nodup :=
      hperm.symm.nodup (List.nodup_dedup _)
    have hmin : ∀ s, (extract_application_window text).dates.head? = some s →
        ∀ d ∈ (extract_application_window text).dates, strLe s d := by
      intro s hs d hd
      cases hl : (extract_application_window text).dates with
      | nil => rw [hl] at hd; exact absurd hd (List.not_mem_nil d)
      | cons a t =>
        rw [hl] at hs hd
        have hsa : a = s := by simpa using hs
        rw [hl, List.pairwise_cons] at hpw
        rcases List.mem_cons.mp hd with rfl | hd2
        · rw [hsa]
          exact le_refl s.data
        · rw [← hsa]
          exact hpw.1 d hd2
    refine ⟨hnd, hpw, ?_, hstart, ?_, ?_, ?_, ?_, ?_, fun h => absurd h hne⟩
    · intro d
      rw [hdates]
      exact (sortStrAsc_perm _).mem_iff.trans (List.mem_dedup)
    · intro s hs
      exact hmin s (hstart ▸ hs)
    · intro h2
      rw [hend, if_pos h2]
    · intro hlt
      rw [hend, if_neg (by omega), hstart]
    · intro e he d hd
      rw [hend] at he
      by_cases h2 : 2 ≤ (extract_application_window text).dates.length
      · rw [if_pos h2] at he
        exact pairwise_getLast_max _ hpw e he d hd
      · rw [if_neg h2] at he
        cases hl : (extract_application_window text).dates with
        | nil => rw [hl] at hd; exact absurd hd (List.not_mem_nil d)
        | cons a t =>
          rw [hl] at he hd h2
          have hae : a = e := by simpa using he
          have ht : t = [] := by
            cases t with
            | nil => rfl
            | cons b u =>
              exfalso
              simp only [List.length_cons] at h2
              omega
          rw [ht] at hd
          have hda : d = a := by simpa using hd
          rw [hda, hae]
          exact le_refl e.data
    · intro s e hs he
      rw [hend] at he
      by_cases h2 : 2 ≤ (extract_application_window text).dates.length
      · rw [if_pos h2] at he
        exact hmin s (hstart ▸ hs) e (getLast?_mem_own _ e he)
      · rw [if_neg h2] at he
        rw [hstart] at hs
        have : s = e := by rw [hs] at he; exact Option.some_injective _ he
        rw [this]
        exact le_refl e.data

/-- Witness for C8: a concrete text with two extractable dates; the
length and emptiness hypotheses are discharged by computation. -/
theorem C8_witness :
    (2 ≤ (extract_application_window tWindow).dates.length ∧
      (extract_application_window tWindow).end_date =
        (extract_application_window tWindow).dates.getLast?) ∧
    extract_application_window "" = emptyWindow :=
  ⟨⟨by decide, (C8_application_window_invariants tWindow).2.2.2.2.2.1 (by decide)⟩,
   (C8_application_window_invariants "").2.2.2.2.2.2.2.2.2 (by decide)⟩

/-!  Idempotence of the clean text normaliser. -/

/-- Adjacent characters of a collapsed text are never both whitespace. -/
def noTwoSpaces (a b : Char) : Prop :=
  ¬(isPySpace a = true ∧ isPySpace b = true)

lemma collapseWS_cons_space_true {d : Char} (ds : List Char) (hd : isPySpace d = true) :
    collapseWS true (d :: ds) = collapseWS true ds := by
  simp [collapseWS, hd]

lemma collapseWS_cons_space_false {d : Char} (ds : List Char) (hd : isPySpace d = true) :
    collapseWS false (d :: ds) = ' ' :: collapseWS true ds := by
  simp [collapseWS, hd]

lemma collapseWS_cons_nonspace {d : Char} (ds : List Char) (hd : isPySpace d = false)
    (b : Bool) : collapseWS b (d :: ds) = d :: collapseWS false ds := by
  simp [collapseWS, hd]

lemma bool_eq_false_of_ne_true {x : Bool} (h : ¬ x = true) : x = false := by
  cases hx : x with
  | true => exact absurd hx h
  | false => rfl

lemma collapse_all_spaces_blank :
    ∀ (l : List Char) (b : Bool) (c : Char), c ∈ collapseWS b l →
      isPySpace c = true → c = ' ' := by
  intro l
  induction l with
  | nil => intro b c hm; exact absurd hm (List.not_mem_nil c)
  | cons d ds ih =>
    intro b c hm hsp
    by_cases hd : isPySpace d = true
    · cases b with
      | true =>
        rw [collapseWS_cons_space_true ds hd] at hm
        exact ih true c hm hsp
      | false =>
        rw [collapseWS_cons_space_false ds hd] at hm
        rcases List.mem_cons.mp hm with rfl | hm2
        · rfl
        · exact ih true c hm2 hsp
    · have hd2 := bool_eq_false_of_ne_true hd
      rw [collapseWS_cons_nonspace ds hd2 b] at hm
      rcases List.mem_cons.mp hm with rfl | hm2
      · rw [hd2] at hsp; exact Bool.noConfusion hsp
      · exact ih false c hm2 hsp

lemma collapse_true_head :
    ∀ (l : List Char) (c : Char), (collapseWS true l).head? = some c →
      isPySpace c = false := by
  intro l
  induction l with
  | nil => intro c h; exact Option.noConfusion h
  | cons d ds ih =>
    intro c h
    by_cases hd : isPySpace d = true
    · rw [collapseWS_cons_space_true ds hd] at h
      exact ih c h
    · have hd2 := bool_eq_false_of_ne_true hd
      rw [collapseWS_cons_nonspace ds hd2 true] at h
      have : d = c := by simpa using h
      rw [← this]
      exact hd2

lemma collapse_chain :
    ∀ (l : List Char) (b : Bool), List.Chain' noTwoSpaces (collapseWS b l) := by
  intro l
  induction l with
  | nil => intro b; exact List.chain'_nil
  | cons d ds ih =>
    intro b
    by_cases hd : isPySpace d = true
    · cases b with
      | true =>
        rw [collapseWS_cons_space_true ds hd]
        exact ih true
      | false =>
        rw [collapseWS_cons_space_false ds hd]
        refine List.chain'_cons'.mpr ⟨?_, ih true⟩
        intro y hy
        have := collapse_true_head ds y hy
        unfold noTwoSpaces
        rw [this]
        simp
    · have hd2 := bool_eq_false_of_ne_true hd
      rw [collapseWS_cons_nonspace ds hd2 b]
      refine List.chain'_cons'.mpr ⟨?_, ih false⟩
      intro y hy
      unfold noTwoSpaces
      rw [hd2]
      simp

lemma head_dropWhile_not :
    ∀ (l : List Char) (c : Char), ((l.dropWhile isPySpace).head? = some c) →
      isPySpace c = false := by
  intro l
  induction l with
  | nil => intro c h; exact Option.noConfusion h
  | cons d ds ih =>
    intro c h
    by_cases hd : isPySpace d = true
    · rw [List.dropWhile_cons_of_pos hd] at h
      exact ih c h
    · have hd2 := bool_eq_false_of_ne_true hd
      rw [List.dropWhile_cons_of_neg hd] at h
      have : d = c := by simpa using h
      rw [← this]
      exact hd2

lemma mem_dropWhile_sub :
    ∀ (l : List Char) (c : Char), c ∈ l.dropWhile isPySpace → c ∈ l := by
  intro l
  induction l with
  | nil => intro c h; exact h
  | cons d ds ih =>
    intro c h
    by_cases hd : isPySpace d = true
    · rw [List.dropWhile_cons_of_pos hd] at h
      exact List.mem_cons_of_mem d (ih c h)
    · rw [List.dropWhile_cons_of_neg hd] at h
      exact h

lemma getLast?_dropWhile :
    ∀ (l : List Char), l.dropWhile isPySpace ≠ [] →
      (l.dropWhile isPySpace).getLast? = l.getLast? := by
  intro l
  induction l with
  | nil => intro h; rfl
  | cons d ds ih =>
    intro h
    by_cases hd : isPySpace d = true
    · rw [List.dropWhile_cons_of_pos hd] at h ⊢
      cases hds : ds with
      | nil => rw [hds] at h; exact absurd rfl h
      | cons y t =>
        rw [← hds, ih (by rw [hds] at h ⊢; exact h), hds, List.getLast?_cons_cons]
    · rw [List.dropWhile_cons_of_neg hd]

lemma chain'_dropWhile {l : List Char} (h : List.Chain' noTwoSpaces l) :
    List.Chain' noTwoSpaces (l.dropWhile isPySpace) := by
  induction l with
  | nil => exact h
  | cons d ds ih =>
    by_cases hd : isPySpace d = true
    · rw [List.dropWhile_cons_of_pos hd]
      exact ih h.tail
    · rw [List.dropWhile_cons_of_neg hd]
      exact h

lemma chain'_flip_self {l : List Char} (h : List.Chain' noTwoSpaces l) :
    List.Chain' (flip noTwoSpaces) l := by
  refine List.Chain'.imp ?_ h
  intro a b hab
  unfold flip noTwoSpaces at hab ⊢
  intro hx
  exact hab ⟨hx.2, hx.1⟩

lemma chain'_reverse_self {l : List Char} (h : List.Chain' noTwoSpaces l) :
    List.Chain' noTwoSpaces l.reverse :=
  List.chain'_reverse.mpr (chain'_flip_self h)

lemma pyStrip_subset {l : List Char} {c : Char} (h : c ∈ pyStrip l) : c ∈ l := by
  unfold pyStrip at h
  rw [List.mem_reverse] at h
  have h2 := mem_dropWhile_sub _ _ h
  rw [List.mem_reverse] at h2
  exact mem_dropWhile_sub _ _ h2

lemma pyStrip_chain {l : List Char} (h : List.Chain' noTwoSpaces l) :
    List.Chain' noTwoSpaces (pyStrip l) := by
  unfold pyStrip
  exact chain'_reverse_self (chain'_dropWhile (chain'_reverse_self (chain'_dropWhile h)))

lemma pyStrip_head_not {l : List Char} {c : Char} (h : (pyStrip l).head? = some c) :
    isPySpace c = false := by
  unfold pyStrip at h
  rw [List.head?_reverse] at h
  have hne : (l.dropWhile isPySpace).reverse.dropWhile isPySpace ≠ [] := by
    intro hx
    rw [hx] at h
    exact Option.noConfusion h
  rw [getLast?_dropWhile _ hne, List.getLast?_reverse] at h
  exact head_dropWhile_not _ _ h

lemma pyStrip_getLast_not {l : List Char} {c : Char}
    (h : (pyStrip l).getLast? = some c) : isPySpace c = false := by
  unfold pyStrip at h
  rw [List.getLast?_reverse] at h
  exact head_dropWhile_not _ _ h

lemma dropWhile_eq_self_of_head {l : List Char}
    (h : ∀ c, l.head? = some c → isPySpace c = false) :
    l.dropWhile isPySpace = l := by
  cases l with
  | nil => rfl
  | cons d ds =>
    have := h d rfl
    rw [List.dropWhile_cons_of_neg (by rw [this]; exact Bool.noConfusion)]

lemma pyStrip_idem (l : List Char) : pyStrip (pyStrip l) = pyStrip l := by
  have d1 : (pyStrip l).dropWhile isPySpace = pyStrip l :=
    dropWhile_eq_self_of_head (fun c hc => pyStrip_head_not hc)
  have d2 : (pyStrip l).reverse.dropWhile isPySpace = (pyStrip l).reverse := by
    refine dropWhile_eq_self_of_head ?_
    intro c hc
    rw [List.head?_reverse] at hc
    exact pyStrip_getLast_not hc
  show ((((pyStrip l).dropWhile isPySpace).reverse.dropWhile isPySpace)).reverse = pyStrip l
  rw [d1, d2, List.reverse_reverse]

lemma collapse_id :
    ∀ (l : List Char) (b : Bool), List.Chain' noTwoSpaces l →
      (∀ c ∈ l, isPySpace c = true → c = ' ') →
      (b = true → ∀ c, l.head? = some c → isPySpace c = false) →
      collapseWS b l = l := by
  intro l
  induction l with
  | nil => intro b _ _ _; cases b <;> rfl
  | cons d ds ih =>
    intro b hch hsp hb
    by_cases hd : isPySpace d = true
    · cases b with
      | true =>
        have := hb rfl d rfl
        rw [this] at hd
        exact Bool.noConfusion hd
      | false =>
        have hd' : d = ' ' := hsp d (List.mem_cons_self d ds) hd
        rw [collapseWS_cons_space_false ds hd]
        have hrec : collapseWS true ds = ds := by
          refine ih true hch.tail (fun c hc => hsp c (List.mem_cons_of_mem d hc)) ?_
          intro _ c hc
          have hrel := (List.chain'_cons'.mp hch).1 c hc
          unfold noTwoSpaces at hrel
          cases hx : isPySpace c with
          | true => exact absurd ⟨hd, hx⟩ hrel
          | false => rfl
        rw [hrec, hd']
    · have hd2 := bool_eq_false_of_ne_true hd
      rw [collapseWS_cons_nonspace ds hd2 b]
      have hrec : collapseWS false ds = ds := by
        refine ih false hch.tail (fun c hc => hsp c (List.mem_cons_of_mem d hc)) ?_
        intro hfalse
        exact Bool.noConfusion hfalse
      rw [hrec]

lemma clean_idem (s : String) : clean (clean s) = clean s := by
  show (⟨pyStrip (collapseWS false (clean s).data)⟩ : String) = clean s
  have hdata : (clean s).data = pyStrip (collapseWS false s.data) := rfl
  have hch : List.Chain' noTwoSpaces (clean s).data := by
    rw [hdata]
    exact pyStrip_chain (collapse_chain s.data false)
  have hsp : ∀ c ∈ (clean s).data, isPySpace c = true → c = ' ' := by
    intro c hc hspace
    rw [hdata] at hc
    exact collapse_all_spaces_blank s.data false c (pyStrip_subset hc) hspace
  rw [collapse_id (clean s).data false hch hsp (fun h => Bool.noConfusion h)]
  rw [hdata, pyStrip_idem]
  rfl

lemma clean_empty : clean "" = "" := rfl

/-- extract_funding depends on its input only through clean. -/
lemma extract_funding_congr {a b : String} (h : clean a = clean b) :
    extract_funding a = extract_funding b := by
  unfold extract_funding
  rw [h]

/-- C9.  Funding extraction is idempotent in its cap field: running the
extractor on the cleaned raw text returned by a first run (the empty
string when the first run returned a null raw) yields the same
cap_amount_sgd.  The raw field is the cleaned input, cleaning is
idempotent, and the whole extraction is a function of the cleaned
input. -/
theorem C9_funding_extraction_idempotent (t : String) :
    (extract_funding ((extract_funding t).raw.getD "")).cap_amount_sgd =
      (extract_funding t).cap_amount_sgd := by
  have hraw : (extract_funding t).raw =
      (if clean t = "" then none else some (clean t)) := rfl
  by_cases h : clean t = ""
  · rw [hraw, if_pos h, Option.getD_none]
    rw [extract_funding_congr (a := "") (b := t) (by rw [clean_empty, h])]
  · rw [hraw, if_neg h, Option.getD_some]
    rw [extract_funding_congr (a := clean t) (b := t) (clean_idem t)]
